import Mathlib

/-!
Verification of the criteria/query core of the service-manager repository.

The Go sources embedded here:
- pkg/query/selection.go : operators, criteria, validation, merge,
  context carrier, and the hand-written field/label query parser
  (process / findRightOp).
- storage/postgres abstract storage helpers (two revisions are present in
  the repository): the map-filter based listing function and the
  criteria-based field query allow-list validation.

Go strings are modelled as lists of characters.  All query inputs handled
by the claims are ASCII, so Go byte indexing coincides with character
indexing.  A Go runtime panic (out-of-range index or slice) is modelled
explicitly by the `GoResult.panics` constructor.
-/

namespace SM

/-- Operator is a query operator (selection.go). -/
inductive Operator
  | equalsOp
  | notEqualsOp
  | greaterThanOp
  | greaterThanOrEqualOp
  | lessThanOp
  | lessThanOrEqualOp
  | inOp
  | notInOp
  | equalsOrNilOp
  | noOperator
deriving DecidableEq, Repr

/-- The textual token of each operator, as in the Go constants. -/
def Operator.token : Operator → List Char
  | .equalsOp => ['=']
  | .notEqualsOp => ['!', '=']
  | .greaterThanOp => ['g', 't']
  | .greaterThanOrEqualOp => ['g', 't', 'e']
  | .lessThanOp => ['l', 't']
  | .lessThanOrEqualOp => ['l', 't', 'e']
  | .inOp => ['i', 'n']
  | .notInOp => ['n', 'o', 't', 'i', 'n']
  | .equalsOrNilOp => ['e', 'q', 'o', 'r', 'n', 'i', 'l']
  | .noOperator => ['n', 'o', 'p']

/-- IsMultiVariate returns true if the operator requires right operand with multiple values. -/
def Operator.isMultiVariate : Operator → Bool
  | .inOp => true
  | .notInOp => true
  | _ => false

/-- IsNullable returns true if the operator can check if the left operand is nil. -/
def Operator.isNullable : Operator → Bool
  | .equalsOrNilOp => true
  | _ => false

/-- IsNumeric returns true if the operator works only with numeric operands. -/
def Operator.isNumeric : Operator → Bool
  | .lessThanOp => true
  | .greaterThanOp => true
  | .lessThanOrEqualOp => true
  | .greaterThanOrEqualOp => true
  | _ => false

/-- The `operators` slice of selection.go, in source order (matters for parsing). -/
def operators : List Operator :=
  [.equalsOp, .notEqualsOp, .inOp, .notInOp, .greaterThanOp,
   .greaterThanOrEqualOp, .lessThanOp, .lessThanOrEqualOp, .equalsOrNilOp]

/-- CriterionType is a type of criteria to be applied when querying. -/
inductive CriterionType
  | fieldQuery
  | labelQuery
  | resultQuery
deriving DecidableEq, Repr

/-- Criterion is a single part of a query criteria. -/
structure Criterion where
  leftOp : List Char
  operator : Operator
  rightOp : List (List Char)
  type : CriterionType
deriving DecidableEq, Repr

/-- ByField constructs a new criterion for field querying. -/
def byField (operator : Operator) (leftOp : List Char) (rightOp : List (List Char)) : Criterion :=
  ⟨leftOp, operator, rightOp, .fieldQuery⟩

/-- ByLabel constructs a new criterion for label querying. -/
def byLabel (operator : Operator) (leftOp : List Char) (rightOp : List (List Char)) : Criterion :=
  ⟨leftOp, operator, rightOp, .labelQuery⟩

/-- The error kinds raised by the query core.  Each constructor names the
condition of one distinct error message in the Go source (the message
strings themselves are not modelled). -/
inductive QueryError
  | castError
  | limitNotPositive
  | orderByMissingField
  | orderByMissingOrderType
  | multipleValuesSingleOp
  | nullableOutsideFieldQuery
  | nonNumericOperand
  | separatorInLeftOp
  | newlineInValue
  | duplicateLabelKey
  | duplicateFieldKey
  | notValidQuery
  | bracketMismatch
  | unsupportedFieldKey
deriving DecidableEq, Repr

/-- The outcome of running a piece of Go code: a runtime panic, an error
return, or a normal return. -/
inductive GoResult (α : Type)
  | panics
  | fails (e : QueryError)
  | ok (a : α)
deriving DecidableEq, Repr

/-- Go strconv digit-string parsing helper: all characters are decimal digits
and there is at least one. -/
def parseDigits (s : List Char) : Option Nat :=
  if s = [] then none
  else if s.all (fun c => c.isDigit) then
    some (s.foldl (fun acc c => acc * 10 + (c.toNat - 48)) 0)
  else none

/-- strconv.Atoi: optional sign followed by decimal digits.  (Integer range
overflow of int64, which Go reports as an error, is not modelled; no claim
involves operands of that magnitude.) -/
def goAtoi (s : List Char) : Option Int :=
  match s with
  | '+' :: rest => (parseDigits rest).map (fun n => (n : Int))
  | '-' :: rest => (parseDigits rest).map (fun n => -(n : Int))
  | _ => (parseDigits s).map (fun n => (n : Int))

/-- Decimal mantissa for float parsing: digits, or digits.digits, or .digits,
or digits. forms. -/
def floatMantissa (s : List Char) : Bool :=
  let before := s.takeWhile (fun c => c.isDigit)
  let rest := s.dropWhile (fun c => c.isDigit)
  match rest with
  | [] => before ≠ []
  | '.' :: frac => (before ≠ [] ∨ frac ≠ []) ∧ frac.all (fun c => c.isDigit)
  | _ => False

/-- Exponent part of a float literal: e or E, optional sign, digits. -/
def floatExponent (s : List Char) : Bool :=
  match s with
  | [] => true
  | e :: rest =>
    ((e == 'e') || (e == 'E')) &&
      (match rest with
       | '+' :: ds => (parseDigits ds).isSome
       | '-' :: ds => (parseDigits ds).isSome
       | ds => (parseDigits ds).isSome)

/-- strconv.ParseFloat on a decimal literal: sign, mantissa, exponent, or the
special inf / infinity / nan words (case-insensitive).  (Go additionally
accepts hexadecimal float literals; those are not modelled — no claim
involves numeric-operator operands at all.) -/
def goParseFloat (s : List Char) : Bool :=
  let lower := s.map (fun c => c.toLower)
  let unsigned :=
    match s with
    | '+' :: rest => rest
    | '-' :: rest => rest
    | _ => s
  let mantissaPart := unsigned.takeWhile (fun c => c.isDigit ∨ c = '.')
  let expPart := unsigned.dropWhile (fun c => c.isDigit ∨ c = '.')
  (lower = ['i', 'n', 'f'] ∨ lower = ['+', 'i', 'n', 'f'] ∨ lower = ['-', 'i', 'n', 'f'] ∨
   lower = ['i', 'n', 'f', 'i', 'n', 'i', 't', 'y'] ∨
   lower = ['+', 'i', 'n', 'f', 'i', 'n', 'i', 't', 'y'] ∨
   lower = ['-', 'i', 'n', 'f', 'i', 'n', 'i', 't', 'y'] ∨
   lower = ['n', 'a', 'n'] ∨
   (floatMantissa mantissaPart ∧ floatExponent expPart))

/-- isNumeric from selection.go: Atoi succeeds or ParseFloat succeeds. -/
def isNumericStr (s : List Char) : Bool :=
  (goAtoi s).isSome || goParseFloat s

/-- Fixed-width decimal number reader used by the RFC3339 checker. -/
def readNat (s : List Char) : Option Nat :=
  if s ≠ [] ∧ s.all (fun c => c.isDigit) then
    some (s.foldl (fun acc c => acc * 10 + (c.toNat - 48)) 0)
  else none

/-- Number of days in the given month of the given year (Gregorian). -/
def daysInMonth (year month : Nat) : Nat :=
  if month = 2 then
    if year % 4 = 0 ∧ (year % 100 ≠ 0 ∨ year % 400 = 0) then 29 else 28
  else if month = 4 ∨ month = 6 ∨ month = 9 ∨ month = 11 then 30
  else 31

/-- Time zone suffix of an RFC3339 timestamp: Z or ±hh:mm. -/
def validZone (s : List Char) : Bool :=
  match s with
  | ['Z'] => true
  | [sign, h1, h2, ':', m1, m2] =>
    ((sign == '+') || (sign == '-')) &&
      (match readNat [h1, h2], readNat [m1, m2] with
       | some h, some m => decide (h ≤ 23) && decide (m ≤ 59)
       | _, _ => false)
  | _ => false

/-- Fractional-seconds part: empty, or a dot followed by at least one digit. -/
def validFraction (s : List Char) : Bool :=
  match s with
  | [] => true
  | '.' :: ds => ds ≠ [] ∧ ds.all (fun c => c.isDigit)
  | _ => false

/-- isDateTime from selection.go: time.Parse(time.RFC3339, str) succeeds.
Modelled as a structural check of yyyy-mm-ddThh:mm:ss[.frac](Z|±hh:mm) with
calendar range validation, which is what the Go layout-driven parser
enforces for the RFC3339 layout. -/
def isDateTimeStr (s : List Char) : Bool :=
  match s with
  | y1 :: y2 :: y3 :: y4 :: '-' :: mo1 :: mo2 :: '-' :: d1 :: d2 :: 'T' ::
    h1 :: h2 :: ':' :: mi1 :: mi2 :: ':' :: s1 :: s2 :: rest =>
    (match readNat [y1, y2, y3, y4], readNat [mo1, mo2], readNat [d1, d2],
           readNat [h1, h2], readNat [mi1, mi2], readNat [s1, s2] with
     | some y, some mo, some d, some h, some mi, some sec =>
       1 ≤ mo ∧ mo ≤ 12 ∧ 1 ≤ d ∧ d ≤ daysInMonth y mo ∧
         h ≤ 23 ∧ mi ≤ 59 ∧ sec ≤ 59 ∧
         (let frac := rest.takeWhile (fun c => c ≠ 'Z' ∧ c ≠ '+' ∧ c ≠ '-')
          let zone := rest.dropWhile (fun c => c ≠ 'Z' ∧ c ≠ '+' ∧ c ≠ '-')
          validFraction frac ∧ validZone zone)
     | _, _, _, _, _, _ => False)
  | _ => false

/-- The reserved characters of the query grammar. -/
def sepChar : Char := '|'

def backslashChar : Char := '\\'

/-- Validate the criterion fields (Criterion.Validate in selection.go).
`GoResult.panics` marks the paths where the Go code indexes RightOp[0] on an
empty slice. -/
def Criterion.validate (c : Criterion) : GoResult Unit :=
  if c.type = .resultQuery then
    if c.leftOp = ("limit".data) then
      match c.rightOp.head? with
      | none => .panics
      | some r0 =>
        match goAtoi r0 with
        | none => .fails .castError
        | some limitVal => if limitVal < 1 then .fails .limitNotPositive else .ok ()
    else if c.leftOp = ("orderBy".data) then
      if c.rightOp.length < 1 then .fails .orderByMissingField
      else if c.rightOp.length < 2 then .fails .orderByMissingOrderType
      else .ok ()
    else .ok ()
  else
    if c.rightOp.length > 1 ∧ ¬c.operator.isMultiVariate then
      .fails .multipleValuesSingleOp
    else if c.operator.isNullable ∧ c.type ≠ .fieldQuery then
      .fails .nullableOutsideFieldQuery
    else if c.operator.isNumeric then
      match c.rightOp.head? with
      | none => .panics
      | some r0 =>
        if ¬isNumericStr r0 ∧ ¬isDateTimeStr r0 then .fails .nonNumericOperand
        else
          if c.leftOp.contains sepChar then .fails .separatorInLeftOp
          else if c.rightOp.any (fun op => op.contains '\n') then .fails .newlineInValue
          else .ok ()
    else
      if c.leftOp.contains sepChar then .fails .separatorInLeftOp
      else if c.rightOp.any (fun op => op.contains '\n') then .fails .newlineInValue
      else .ok ()

/-!
## The DSL parser (process / findRightOp in selection.go)

`findRightOp` scans the remainder of the input after an operator match.  The
Go loop iterates over the characters of `remaining` while also indexing
`remaining` absolutely at `offset - 1` and `offset + 1` and slicing the
value buffer at `offset - 1`.  The loop state is (offset, buffer,
collected args).  `none` from the loop models a Go runtime panic:
indexing `remaining[-1]` (a separator as the very first character) or
slicing the buffer beyond its length.
-/

/-- One pass of the character loop of findRightOp.  `remaining` is the whole
scanned string, `suffix` the characters not yet consumed (always
`remaining.drop offset`).  Returns the collected args, the final buffer and
the final offset; the offset is not advanced past an unescaped separator
that terminates the segment (the Go `break`). -/
def findLoop (remaining : List Char) :
    List Char → Nat → List Char → List (List Char) →
    Option (List (List Char) × List Char × Nat)
  | [], offset, buf, args => some (args, buf, offset)
  | ch :: rest, offset, buf, args =>
    if ch = sepChar then
      if offset = 0 then none
      else if offset + 1 < remaining.length ∧ remaining.getD (offset + 1) ' ' = sepChar ∧
              remaining.getD (offset - 1) ' ' ≠ backslashChar then
        findLoop remaining rest (offset + 1) [] (args ++ [buf])
      else if remaining.getD (offset - 1) ' ' = sepChar then
        findLoop remaining rest (offset + 1) buf args
      else if remaining.getD (offset - 1) ' ' ≠ backslashChar then
        some (args ++ [buf], [], offset)
      else
        if buf.length < offset - 1 then none
        else findLoop remaining rest (offset + 1) (buf.take (offset - 1) ++ [ch]) args
    else
      findLoop remaining rest (offset + 1) (buf ++ [ch]) args

/-- The bracket phase of findRightOp for a multivariate operator: the first
element must start with the opening bracket and the last (after the first
was stripped) must end with the closing bracket; both are stripped.
Reading the last character of an empty last element is a Go panic. -/
def applyBrackets : List (List Char) → GoResult (List (List Char))
  | [] => .ok []
  | first :: rest =>
    if first.head? = some '[' then
      let stripped := first.drop 1
      let updated := stripped :: rest
      match updated.getLast? with
      | none => .panics
      | some lastElem =>
        if lastElem = [] then .panics
        else if lastElem.getLast? = some ']' then
          .ok (updated.dropLast ++ [lastElem.dropLast])
        else .fails .bracketMismatch
    else .fails .bracketMismatch

/-- findRightOp from selection.go: run the character loop, append a pending
non-empty buffer, apply the bracket rule for multivariate operators, and
default an empty result to the single empty value. -/
def findRightOp (remaining : List Char) (operator : Operator) :
    GoResult (List (List Char) × Nat) :=
  match findLoop remaining remaining 0 [] [] with
  | none => .panics
  | some (args, buf, offset) =>
    let rightOp := if buf.length > 0 then args ++ [buf] else args
    if rightOp.length > 0 ∧ operator.isMultiVariate then
      match applyBrackets rightOp with
      | .panics => .panics
      | .fails e => .fails e
      | .ok rightOp2 =>
        .ok ((if rightOp2 = [] then [[]] else rightOp2), offset)
    else
      .ok ((if rightOp = [] then [[]] else rightOp), offset)

/-- The operator scan of process: does any known operator token, bracketed by
the operand separator, start at position `i` of the input?  First match in
the source order of the `operators` slice wins. -/
def matchOperatorAt (input : List Char) (i : Nat) : Option Operator :=
  operators.find? (fun op =>
    List.isPrefixOf (' ' :: (op.token ++ [' '])) (input.drop i))

/-- The main loop of process.  `i` is the loop index, `j` the start of the
current segment, `leftOp`/`oper` the pending pair.  `fuel` strictly exceeds
the number of remaining iterations (the index grows by at least one per
iteration), so the fuel-exhaustion arm is unreachable. -/
def processLoop (input : List Char) (criteriaType : CriterionType) :
    Nat → Nat → Nat → List Char → Option Operator → List Criterion →
    GoResult (List Criterion)
  | 0, _, _, _, _, _ => .panics
  | fuel + 1, i, j, leftOp, oper, acc =>
    if i ≥ input.length then
      if acc = [] then .fails .notValidQuery else .ok acc
    else
      match oper, leftOp with
      | some op, l :: ls =>
        let remaining := input.drop (i + op.token.length + 1)
        match findRightOp remaining op with
        | .panics => .panics
        | .fails e => .fails e
        | .ok (rightOp, offset) =>
          let crit : Criterion := ⟨l :: ls, op, rightOp, criteriaType⟩
          match crit.validate with
          | .panics => .panics
          | .fails e => .fails e
          | .ok _ =>
            let i2 := i + offset + op.token.length + 1
            processLoop input criteriaType fuel (i2 + 1) (i2 + 1) [] none
              (acc ++ [crit])
      | _, _ =>
        match matchOperatorAt input i with
        | some op =>
          processLoop input criteriaType fuel (i + 1) j
            ((input.drop j).take (i - j)) (some op) acc
        | none => processLoop input criteriaType fuel (i + 1) j leftOp oper acc

/-- process from selection.go: empty input yields the empty criteria list;
otherwise scan the input, and if no criterion was produced report an
invalid-query error. -/
def process (input : List Char) (criteriaType : CriterionType) :
    GoResult (List Criterion) :=
  if input = [] then .ok []
  else processLoop input criteriaType (input.length + 1) 0 0 [] none []

/-!
## Merge engine and criteria carrier (selection.go)
-/

/-- Number of FieldQuery criteria of `l` whose left operand is `k`
(the per-key occurrence count that mergeCriteria accumulates in its
fieldQueryLeftOperands map). -/
def fieldKeyCount (l : List Criterion) (k : List Char) : Nat :=
  (l.filter (fun c => decide (c.type = .fieldQuery ∧ c.leftOp = k))).length

/-- Number of LabelQuery criteria of `l` whose left operand is `k`. -/
def labelKeyCount (l : List Criterion) (k : List Char) : Nat :=
  (l.filter (fun c => decide (c.type = .labelQuery ∧ c.leftOp = k))).length

/-- The per-incoming-criterion loop of mergeCriteria: duplicate-label check,
then duplicate-field check, then Validate; the first failure aborts. -/
def mergeCheck (comb : List Criterion) : List Criterion → GoResult Unit
  | [] => .ok ()
  | c :: rest =>
    if labelKeyCount comb c.leftOp > 1 ∧ c.type = .labelQuery then
      .fails .duplicateLabelKey
    else if fieldKeyCount comb c.leftOp > 1 ∧ c.type = .fieldQuery then
      .fails .duplicateFieldKey
    else
      match c.validate with
      | .panics => .panics
      | .fails e => .fails e
      | .ok _ => mergeCheck comb rest

/-- mergeCriteria from selection.go: count keys per kind over the combined
set, run the incoming checks, and on success return existing ++ incoming. -/
def mergeCriteria (c1 c2 : List Criterion) : GoResult (List Criterion) :=
  match mergeCheck (c1 ++ c2) c2 with
  | .panics => .panics
  | .fails e => .fails e
  | .ok _ => .ok (c1 ++ c2)

/-- AddCriteria over the carrier: the context value is modelled by the
criteria list it holds (CriteriaForContext of a fresh context is []). -/
def addCriteria (current newCriteria : List Criterion) : GoResult (List Criterion) :=
  mergeCriteria current newCriteria

/-- A finite sequence of AddCriteria calls threaded through the carrier,
aborting at the first failing attach. -/
def applyAttach : List Criterion → List (List Criterion) → GoResult (List Criterion)
  | cur, [] => .ok cur
  | cur, b :: bs =>
    match addCriteria cur b with
    | .panics => .panics
    | .fails e => .fails e
    | .ok r => applyAttach r bs

/-- No two FieldQuery criteria of `l` share a left operand, and no two
LabelQuery criteria of `l` share a left operand. -/
def noKindDuplicates (l : List Criterion) : Bool :=
  l.all (fun c =>
    match c.type with
    | .fieldQuery => decide (fieldKeyCount l c.leftOp ≤ 1)
    | .labelQuery => decide (labelKeyCount l c.leftOp ≤ 1)
    | .resultQuery => true)

/-!
## Postgres storage helpers (the two abstract-storage revisions in the repo)
-/

/-- strings.Join. -/
def joinWith (sep : List Char) : List (List Char) → List Char
  | [] => []
  | [x] => x
  | x :: y :: xs => x ++ sep ++ joinWith sep (y :: xs)

/-- The statement text built by the map-filter `list` function of the
abstract storage file: `SELECT * FROM <table>` plus, when the filter is
non-empty, a WHERE clause whose value comparisons are produced by
fmt.Sprintf with the value spliced between single quotes directly into the
text (an empty value becomes IS NULL).  The Go filter is a map; its
iteration order is modelled by the order of the association list.  The
driver call passes no bind parameters for this statement. -/
def listFilterSQL (table : List Char) (filter : List (List Char × List (List Char))) :
    List Char :=
  let base := ("SELECT * FROM ".data) ++ table
  if filter.isEmpty then base
  else
    let andPairs := filter.map (fun kv =>
      let orPairs := kv.2.map (fun v =>
        if v ≠ [] then kv.1 ++ ("=\x27".data) ++ v ++ ("\x27".data)
        else kv.1 ++ (" IS NULL".data))
      (" (".data) ++ joinWith (" OR ".data) orPairs ++ (") ".data))
    base ++ (" WHERE ".data) ++ joinWith (" AND ".data) andPairs

/-- validateFieldQueryParams in the later abstract-storage revision: only
FieldQuery criteria are checked against the column allow-list of the entity. -/
def validateFieldQueryParamsTyped (columns : List (List Char)) :
    List Criterion → GoResult Unit
  | [] => .ok ()
  | c :: rest =>
    if c.type = .fieldQuery ∧ ¬columns.contains c.leftOp then
      .fails .unsupportedFieldKey
    else validateFieldQueryParamsTyped columns rest

/-- validateFieldQueryParams in the earlier abstract-storage revision: every
left operand of each criterion, regardless of its criterion type, is checked
against the column allow-list of the entity. -/
def validateFieldQueryParamsUntyped (columns : List (List Char)) :
    List Criterion → GoResult Unit
  | [] => .ok ()
  | c :: rest =>
    if ¬columns.contains c.leftOp then .fails .unsupportedFieldKey
    else validateFieldQueryParamsUntyped columns rest

/-- The db-tag columns of the Visibility entity (id, platform_id,
service_plan_id, created_at, updated_at), the entity that the tests of the repository
test exercises listWithLabelsAndCriteria with. -/
def visibilityColumns : List (List Char) :=
  [("id".data), ("platform_id".data), ("service_plan_id".data),
   ("created_at".data), ("updated_at".data)]

/-- Did the Go call return an error (as opposed to succeeding or panicking)? -/
def isFailure {α : Type} : GoResult α → Bool
  | .fails _ => true
  | _ => false

/-- Does Validate panic on this criterion (RightOp[0] on an empty slice)? -/
def validatePanicsB (c : Criterion) : Bool :=
  c.validate == .panics

/-- Does this incoming criterion trip one of the mergeCriteria checks:
duplicate label key, duplicate field key, or a Validate error? -/
def checkFailsB (comb : List Criterion) (c : Criterion) : Bool :=
  decide (labelKeyCount comb c.leftOp > 1 ∧ c.type = .labelQuery) ||
  decide (fieldKeyCount comb c.leftOp > 1 ∧ c.type = .fieldQuery) ||
  isFailure c.validate

/-- Does this incoming criterion pass all the mergeCriteria checks? -/
def checkPassesB (comb : List Criterion) (c : Criterion) : Bool :=
  !decide (labelKeyCount comb c.leftOp > 1 ∧ c.type = .labelQuery) &&
  !decide (fieldKeyCount comb c.leftOp > 1 ∧ c.type = .fieldQuery) &&
  (c.validate == .ok ())

/-!
## Helper lemmas
-/

theorem checkPassesB_eq_true (comb : List Criterion) (c : Criterion) :
    checkPassesB comb c = true ↔
      ¬(labelKeyCount comb c.leftOp > 1 ∧ c.type = .labelQuery) ∧
      ¬(fieldKeyCount comb c.leftOp > 1 ∧ c.type = .fieldQuery) ∧
      c.validate = .ok () := by
  simp only [checkPassesB, Bool.and_eq_true, Bool.not_eq_true', decide_eq_false_iff_not,
    beq_iff_eq, and_assoc]

theorem mergeCheck_ok_iff (comb cs : List Criterion) :
    mergeCheck comb cs = .ok () ↔ ∀ c ∈ cs, checkPassesB comb c = true := by
  induction cs with
  | nil => simp [mergeCheck]
  | cons c rest ih =>
    constructor
    · intro h d hd
      rw [mergeCheck] at h
      by_cases h1 : labelKeyCount comb c.leftOp > 1 ∧ c.type = .labelQuery
      · rw [if_pos h1] at h; exact absurd h (by simp)
      rw [if_neg h1] at h
      by_cases h2 : fieldKeyCount comb c.leftOp > 1 ∧ c.type = .fieldQuery
      · rw [if_pos h2] at h; exact absurd h (by simp)
      rw [if_neg h2] at h
      cases hv : c.validate with
      | panics => rw [hv] at h; exact absurd h (by simp)
      | fails e => rw [hv] at h; exact absurd h (by simp)
      | ok u =>
        rw [hv] at h
        have hrest : mergeCheck comb rest = .ok () := h
        rcases List.mem_cons.mp hd with rfl | hdr
        · obtain ⟨⟩ := u
          exact (checkPassesB_eq_true comb d).mpr ⟨h1, h2, hv⟩
        · exact (ih.mp hrest) d hdr
    · intro h
      rw [mergeCheck]
      have hc := (checkPassesB_eq_true comb c).mp (h c (List.mem_cons_self c rest))
      rw [if_neg hc.1, if_neg hc.2.1, hc.2.2]
      exact ih.mpr (fun d hd => h d (List.mem_cons_of_mem c hd))

theorem mergeCriteria_ok_iff (c1 c2 r : List Criterion) :
    mergeCriteria c1 c2 = .ok r ↔
      r = c1 ++ c2 ∧ mergeCheck (c1 ++ c2) c2 = .ok () := by
  rw [mergeCriteria]
  cases h : mergeCheck (c1 ++ c2) c2 with
  | panics => simp [h]
  | fails e => simp [h]
  | ok u => obtain ⟨⟩ := u; simp [h, eq_comm]

theorem fieldKeyCount_append (a b : List Criterion) (k : List Char) :
    fieldKeyCount (a ++ b) k = fieldKeyCount a k + fieldKeyCount b k := by
  simp [fieldKeyCount, List.filter_append]

theorem labelKeyCount_append (a b : List Criterion) (k : List Char) :
    labelKeyCount (a ++ b) k = labelKeyCount a k + labelKeyCount b k := by
  simp [labelKeyCount, List.filter_append]

theorem fieldKeyCount_pos (l : List Criterion) (k : List Char)
    (h : 0 < fieldKeyCount l k) :
    ∃ c ∈ l, c.type = .fieldQuery ∧ c.leftOp = k := by
  rw [fieldKeyCount] at h
  obtain ⟨c, hc⟩ :=
    List.exists_mem_of_ne_nil _ (List.length_pos.mp h)
  have hm := List.mem_filter.mp hc
  exact ⟨c, hm.1, by simpa using hm.2⟩

theorem labelKeyCount_pos (l : List Criterion) (k : List Char)
    (h : 0 < labelKeyCount l k) :
    ∃ c ∈ l, c.type = .labelQuery ∧ c.leftOp = k := by
  rw [labelKeyCount] at h
  obtain ⟨c, hc⟩ :=
    List.exists_mem_of_ne_nil _ (List.length_pos.mp h)
  have hm := List.mem_filter.mp hc
  exact ⟨c, hm.1, by simpa using hm.2⟩

theorem noDup_field_le_one (l : List Criterion)
    (h : noKindDuplicates l = true) (k : List Char) :
    fieldKeyCount l k ≤ 1 := by
  by_contra hgt
  push_neg at hgt
  obtain ⟨c, hc, hct, hck⟩ := fieldKeyCount_pos l k (by omega)
  have hall := (List.all_eq_true.mp h) c hc
  rw [hct] at hall
  have hd : decide (fieldKeyCount l c.leftOp ≤ 1) = true := hall
  rw [hck] at hd
  exact absurd (of_decide_eq_true hd) (by omega)

theorem noDup_label_le_one (l : List Criterion)
    (h : noKindDuplicates l = true) (k : List Char) :
    labelKeyCount l k ≤ 1 := by
  by_contra hgt
  push_neg at hgt
  obtain ⟨c, hc, hct, hck⟩ := labelKeyCount_pos l k (by omega)
  have hall := (List.all_eq_true.mp h) c hc
  rw [hct] at hall
  have hd : decide (labelKeyCount l c.leftOp ≤ 1) = true := hall
  rw [hck] at hd
  exact absurd (of_decide_eq_true hd) (by omega)

theorem noKindDuplicates_append (c1 c2 : List Criterion)
    (h1 : noKindDuplicates c1 = true)
    (h2 : mergeCheck (c1 ++ c2) c2 = .ok ()) :
    noKindDuplicates (c1 ++ c2) = true := by
  rw [noKindDuplicates, List.all_eq_true]
  intro c hc
  have hpass := (mergeCheck_ok_iff (c1 ++ c2) c2).mp h2
  cases hct : c.type with
  | resultQuery => rfl
  | fieldQuery =>
    show decide (fieldKeyCount (c1 ++ c2) c.leftOp ≤ 1) = true
    rw [decide_eq_true_eq]
    by_contra hgt
    push_neg at hgt
    rw [fieldKeyCount_append] at hgt
    rcases Nat.eq_zero_or_pos (fieldKeyCount c2 c.leftOp) with hz | hpos
    · have hle := noDup_field_le_one c1 h1 c.leftOp
      omega
    · obtain ⟨d, hd, hdt, hdk⟩ := fieldKeyCount_pos c2 c.leftOp hpos
      have hp := (checkPassesB_eq_true _ d).mp (hpass d hd)
      have hfd := hp.2.1
      rw [hdk] at hfd
      exact hfd ⟨by rw [fieldKeyCount_append]; omega, hdt⟩
  | labelQuery =>
    show decide (labelKeyCount (c1 ++ c2) c.leftOp ≤ 1) = true
    rw [decide_eq_true_eq]
    by_contra hgt
    push_neg at hgt
    rw [labelKeyCount_append] at hgt
    rcases Nat.eq_zero_or_pos (labelKeyCount c2 c.leftOp) with hz | hpos
    · have hle := noDup_label_le_one c1 h1 c.leftOp
      omega
    · obtain ⟨d, hd, hdt, hdk⟩ := labelKeyCount_pos c2 c.leftOp hpos
      have hp := (checkPassesB_eq_true _ d).mp (hpass d hd)
      have hld := hp.1
      rw [hdk] at hld
      exact hld ⟨by rw [labelKeyCount_append]; omega, hdt⟩

theorem applyAttach_preserves (batches : List (List Criterion)) :
    ∀ cur r : List Criterion, noKindDuplicates cur = true →
      applyAttach cur batches = .ok r → noKindDuplicates r = true := by
  induction batches with
  | nil =>
    intro cur r h hr
    rw [applyAttach] at hr
    obtain rfl : cur = r := by
      cases hr; rfl
    exact h
  | cons b bs ih =>
    intro cur r h hr
    rw [applyAttach] at hr
    cases hm : addCriteria cur b with
    | panics => rw [hm] at hr; exact absurd hr (by simp)
    | fails e => rw [hm] at hr; exact absurd hr (by simp)
    | ok r' =>
      rw [hm] at hr
      have hmm := (mergeCriteria_ok_iff cur b r').mp hm
      have hnd : noKindDuplicates r' = true := by
        rw [hmm.1]; exact noKindDuplicates_append cur b h hmm.2
      exact ih r' r hnd hr

theorem applyBrackets_fails_of_no_open (first : List Char) (rest : List (List Char))
    (h : first.head? ≠ some '[') :
    applyBrackets (first :: rest) = .fails .bracketMismatch := by
  rw [applyBrackets, if_neg h]

theorem applyBrackets_ok_shape (first : List Char) (rest out : List (List Char))
    (h : applyBrackets (first :: rest) = .ok out) :
    first.head? = some '[' ∧
      ∃ lastElem : List Char,
        (first.drop 1 :: rest).getLast? = some lastElem ∧
        lastElem.getLast? = some ']' ∧
        out = (first.drop 1 :: rest).dropLast ++ [lastElem.dropLast] := by
  rw [applyBrackets] at h
  by_cases h1 : first.head? = some '['
  · rw [if_pos h1] at h
    dsimp only [] at h
    refine ⟨h1, ?_⟩
    cases hL : (first.drop 1 :: rest).getLast? with
    | none => rw [hL] at h; exact absurd h (by simp)
    | some lastElem =>
      rw [hL] at h
      dsimp only [] at h
      by_cases h2 : lastElem = []
      · rw [if_pos h2] at h; exact absurd h (by simp)
      rw [if_neg h2] at h
      by_cases h3 : lastElem.getLast? = some ']'
      · rw [if_pos h3] at h
        exact ⟨lastElem, rfl, h3, by cases h; rfl⟩
      · rw [if_neg h3] at h; exact absurd h (by simp)
  · rw [if_neg h1] at h; exact absurd h (by simp)

/-!
## Claims
-/

/-- Claim C1 (evaluation of the code at the failing input): the map-filter
listing function of the abstract storage layer concatenates the filter value
directly into the statement text.  Listing table t with the filter
name = v yields a statement whose text embeds the quoted value, so the
value does not travel through the positional parameter list (the Go call
site passes no bind arguments at all for this statement). -/
theorem C1_list_inlines_filter_value :
    listFilterSQL ("t".data) [(("name".data), [("v".data)])] =
      ("SELECT * FROM t WHERE  (name=".data) ++ ("\x27v\x27".data) ++ (") ".data) ∧
    ("\x27v\x27".data) <:+: listFilterSQL ("t".data) [(("name".data), [("v".data)])] := by
  exact ⟨rfl, by decide⟩

/-- Claim C2 counterexample: the backslash is dropped only for the first
escaped separator of a value.  Parsing the field query a = x\|y\|z yields
the single right operand x|y\|z — the second escaped separator keeps its
backslash, refuting the claim that the same literal treatment (drop the
backslash) applies to every escaped separator occurrence in a value. -/
theorem C2_second_escape_keeps_backslash :
    process ("a = x\\|y\\|z".data) .fieldQuery =
      .ok [⟨("a".data), .equalsOp, [("x|y\\|z".data)], .fieldQuery⟩] ∧
    ("x|y\\|z".data) ≠ ("x|y|z".data) := by
  exact ⟨rfl, by decide⟩

/-- Claim C2 as amended: parsing the field query name = foo\|bar yields
exactly one criterion whose single right operand is foo|bar (the escaped
separator is kept as a literal character and its backslash dropped), but
the backslash-dropping only applies while the value buffer is still in
step with the scan offset: once one backslash has been removed, a later
escaped separator in the same value keeps its backslash, as in
a = x\|y\|z, which parses to the single right operand x|y\|z. -/
theorem C2_escaped_separator_literal :
    process ("name = foo\\|bar".data) .fieldQuery =
      .ok [⟨("name".data), .equalsOp, [("foo|bar".data)], .fieldQuery⟩] ∧
    process ("a = x\\|y\\|z".data) .fieldQuery =
      .ok [⟨("a".data), .equalsOp, [("x|y\\|z".data)], .fieldQuery⟩] :=
  ⟨rfl, rfl⟩

/-- Claim C3 counterexample: parsing status in [a|b|c] does not yield the
right operands a, b, c — a single unescaped separator terminates the whole
value, so the collected operand is "[a", which fails the closing-bracket
check: the parse errors with a bracket mismatch. -/
theorem C3_single_separator_list_fails :
    process ("status in [a|b|c]".data) .fieldQuery = .fails .bracketMismatch :=
  rfl

/-- Claim C3 as amended: elements of a multivariate right operand are
separated by a doubled separator, so status in [a||b||c] yields the right
operands a, b, c; status in a (missing brackets) fails with a bracket
mismatch; and in general the first collected element must start with the
opening bracket and the last must end with the closing bracket, both are
stripped, and absence of either is a bracket-mismatch error. -/
theorem C3_bracket_enforcement :
    process ("status in [a||b||c]".data) .fieldQuery =
      .ok [⟨("status".data), .inOp, [("a".data), ("b".data), ("c".data)], .fieldQuery⟩] ∧
    process ("status in a".data) .fieldQuery = .fails .bracketMismatch ∧
    (∀ (first : List Char) (rest : List (List Char)), first.head? ≠ some '[' →
        applyBrackets (first :: rest) = .fails .bracketMismatch) ∧
    (∀ (first : List Char) (rest out : List (List Char)),
        applyBrackets (first :: rest) = .ok out →
        first.head? = some '[' ∧
          ∃ lastElem : List Char,
            (first.drop 1 :: rest).getLast? = some lastElem ∧
            lastElem.getLast? = some ']' ∧
            out = (first.drop 1 :: rest).dropLast ++ [lastElem.dropLast]) :=
  ⟨rfl, rfl, applyBrackets_fails_of_no_open, applyBrackets_ok_shape⟩

/-- Claim C3 witness: the bracket-mismatch arms of the amended claim applied
at concrete inputs. -/
theorem C3_bracket_enforcement_witness :
    applyBrackets [("abc".data)] = .fails .bracketMismatch ∧
    applyBrackets [("[abc]".data)] = .ok [("abc".data)] := by
  constructor
  · exact C3_bracket_enforcement.2.2.1 ("abc".data) [] (by decide)
  · rfl

/-- Claim C10: a field- or label-query string that ends immediately after an
operator token parses successfully, closing the pending value as a single
empty string: findRightOp on an empty remainder yields the right-operand
list [""] for every operator, and the input "a = " produces exactly one
criterion with right operands [""] under both query kinds. -/
theorem C10_trailing_operator_empty_value :
    (∀ op : Operator, findRightOp [] op = .ok ([[]], 0)) ∧
    process ("a = ".data) .fieldQuery =
      .ok [⟨("a".data), .equalsOp, [[]], .fieldQuery⟩] ∧
    process ("a = ".data) .labelQuery =
      .ok [⟨("a".data), .equalsOp, [[]], .labelQuery⟩] := by
  refine ⟨fun op => ?_, rfl, rfl⟩
  cases op <;> rfl

/-- Claim C10 witness: the empty-remainder arm applied at the in operator. -/
theorem C10_trailing_operator_empty_value_witness :
    findRightOp [] Operator.inOp = .ok ([[]], 0) :=
  C10_trailing_operator_empty_value.1 Operator.inOp

/-- Claim C4: merging a FieldQuery keyed x with an incoming FieldQuery also
keyed x fails with the duplicate-field-key error, merging a FieldQuery
keyed x with a LabelQuery keyed x succeeds, and in general duplicate
detection counts occurrences per (leftOperand, kind): whenever the combined
set has no per-kind duplicate key and every incoming criterion validates,
the merge succeeds — keys of different kinds never collide. -/
theorem C4_duplicate_detection_per_kind :
    mergeCriteria [byField .equalsOp ("x".data) [("1".data)]]
        [byField .equalsOp ("x".data) [("2".data)]] = .fails .duplicateFieldKey ∧
    mergeCriteria [byField .equalsOp ("x".data) [("1".data)]]
        [byLabel .equalsOp ("x".data) [("2".data)]] =
      .ok [byField .equalsOp ("x".data) [("1".data)],
           byLabel .equalsOp ("x".data) [("2".data)]] ∧
    (∀ c1 c2 : List Criterion, noKindDuplicates (c1 ++ c2) = true →
        c2.all (fun c => c.validate == .ok ()) = true →
        mergeCriteria c1 c2 = .ok (c1 ++ c2)) := by
  refine ⟨rfl, rfl, fun c1 c2 hnd hval => ?_⟩
  rw [mergeCriteria_ok_iff]
  refine ⟨rfl, (mergeCheck_ok_iff (c1 ++ c2) c2).mpr (fun c hc => ?_)⟩
  rw [checkPassesB_eq_true]
  refine ⟨?_, ?_, ?_⟩
  · intro hdup
    have := noDup_label_le_one (c1 ++ c2) hnd c.leftOp
    omega
  · intro hdup
    have := noDup_field_le_one (c1 ++ c2) hnd c.leftOp
    omega
  · have := (List.all_eq_true.mp hval) c hc
    exact beq_iff_eq.mp this

/-- Claim C4 witness: the general arm applied at a field criterion and a
label criterion that share the key a. -/
theorem C4_duplicate_detection_per_kind_witness :
    mergeCriteria [byField .equalsOp ("a".data) [("1".data)]]
        [byLabel .equalsOp ("a".data) [("2".data)]] =
      .ok ([byField .equalsOp ("a".data) [("1".data)]] ++
           [byLabel .equalsOp ("a".data) [("2".data)]]) :=
  C4_duplicate_detection_per_kind.2.2
    [byField .equalsOp ("a".data) [("1".data)]]
    [byLabel .equalsOp ("a".data) [("2".data)]] (by decide) (by decide)

/-- Claim C5: merge is all-or-nothing.  A successful merge returns exactly
existing ++ incoming (the existing list is a value and is never mutated);
if some incoming criterion fails duplicate detection or fails validation
with an error (and no incoming criterion hits the Go panic path of
Validate), the merge returns an error; and when every incoming criterion
passes all checks the merge succeeds with existing ++ incoming. -/
theorem C5_merge_all_or_nothing :
    ∀ c1 c2 : List Criterion,
      (∀ r : List Criterion, mergeCriteria c1 c2 = .ok r → r = c1 ++ c2) ∧
      (c2.any (checkFailsB (c1 ++ c2)) = true →
        c2.all (fun c => !validatePanicsB c) = true →
        isFailure (mergeCriteria c1 c2) = true) ∧
      (c2.all (checkPassesB (c1 ++ c2)) = true →
        mergeCriteria c1 c2 = .ok (c1 ++ c2)) := by
  intro c1 c2
  refine ⟨fun r hr => ((mergeCriteria_ok_iff c1 c2 r).mp hr).1, ?_, ?_⟩
  · intro hany hnp
    have key : ∀ cs : List Criterion,
        cs.any (checkFailsB (c1 ++ c2)) = true →
        cs.all (fun c => !validatePanicsB c) = true →
        isFailure (mergeCheck (c1 ++ c2) cs) = true := by
      intro cs
      induction cs with
      | nil => intro h _; exact absurd h (by simp)
      | cons c rest ih =>
        intro hany2 hnp2
        rw [mergeCheck]
        by_cases h1 : labelKeyCount (c1 ++ c2) c.leftOp > 1 ∧ c.type = .labelQuery
        · rw [if_pos h1]; rfl
        rw [if_neg h1]
        by_cases h2 : fieldKeyCount (c1 ++ c2) c.leftOp > 1 ∧ c.type = .fieldQuery
        · rw [if_pos h2]; rfl
        rw [if_neg h2]
        cases hv : c.validate with
        | panics =>
          have := (List.all_eq_true.mp hnp2) c (List.mem_cons_self c rest)
          rw [validatePanicsB, hv] at this
          exact absurd this (by simp)
        | fails e => rfl
        | ok u =>
          have hcf : checkFailsB (c1 ++ c2) c = false := by
            simp [checkFailsB, isFailure, hv, h1, h2]
          have hrest : rest.any (checkFailsB (c1 ++ c2)) = true := by
            rcases List.any_eq_true.mp hany2 with ⟨d, hd, hdf⟩
            rcases List.mem_cons.mp hd with rfl | hdr
            · rw [hcf] at hdf; exact absurd hdf (by simp)
            · exact List.any_eq_true.mpr ⟨d, hdr, hdf⟩
          exact ih hrest (by
            rw [List.all_cons] at hnp2
            exact (Bool.and_eq_true _ _).mp hnp2 |>.2)
    have hk := key c2 hany hnp
    rw [mergeCriteria]
    cases hm : mergeCheck (c1 ++ c2) c2 with
    | panics => rw [hm] at hk; exact absurd hk (by simp [isFailure])
    | fails e => rfl
    | ok u => rw [hm] at hk; exact absurd hk (by simp [isFailure])
  · intro hall
    rw [mergeCriteria_ok_iff]
    exact ⟨rfl, (mergeCheck_ok_iff (c1 ++ c2) c2).mpr
      (fun c hc => (List.all_eq_true.mp hall) c hc)⟩

/-- Claim C5 witness: the error arm applied to an incoming list that
duplicates a field key inside itself, and the success arm applied to a
clean merge. -/
theorem C5_merge_all_or_nothing_witness :
    isFailure (mergeCriteria []
      [byField .equalsOp ("k".data) [("1".data)],
       byField .equalsOp ("k".data) [("2".data)]]) = true ∧
    mergeCriteria [] [byField .equalsOp ("k".data) [("1".data)]] =
      .ok ([] ++ [byField .equalsOp ("k".data) [("1".data)]]) := by
  constructor
  · exact (C5_merge_all_or_nothing []
      [byField .equalsOp ("k".data) [("1".data)],
       byField .equalsOp ("k".data) [("2".data)]]).2.1 (by decide) (by decide)
  · exact (C5_merge_all_or_nothing []
      [byField .equalsOp ("k".data) [("1".data)]]).2.2 (by decide)

/-- Claim C6: starting from a context holding the empty criteria set, any
finite sequence of successful AddCriteria calls yields a criteria set with
no two FieldQuery criteria sharing a left operand and no two LabelQuery
criteria sharing a left operand. -/
theorem C6_carrier_no_duplicate_keys (batches : List (List Criterion))
    (r : List Criterion) (h : applyAttach [] batches = .ok r) :
    noKindDuplicates r = true :=
  applyAttach_preserves batches [] r rfl h

/-- Claim C6 witness: two successful attaches of a field and a label
criterion sharing the key x leave a duplicate-free criteria set. -/
theorem C6_carrier_no_duplicate_keys_witness :
    noKindDuplicates
      [byField .equalsOp ("x".data) [("1".data)],
       byLabel .equalsOp ("x".data) [("2".data)]] = true :=
  C6_carrier_no_duplicate_keys
    [[byField .equalsOp ("x".data) [("1".data)]],
     [byLabel .equalsOp ("x".data) [("2".data)]]]
    [byField .equalsOp ("x".data) [("1".data)],
     byLabel .equalsOp ("x".data) [("2".data)]] rfl

/-- Claim C7 counterexample: an orderBy ResultQuery criterion whose
direction operand is neither asc nor desc passes Validate without error,
refuting the claim that Validate errors exactly on the shapes violating the
spec (direction ∈ {asc, desc} is not checked). -/
theorem C7_orderBy_direction_unchecked :
    Criterion.validate
        ⟨("orderBy".data), .noOperator, [("f".data), ("sideways".data)], .resultQuery⟩ =
      .ok () ∧
    ("sideways".data) ≠ ("asc".data) ∧ ("sideways".data) ≠ ("desc".data) :=
  ⟨rfl, by decide, by decide⟩

/-- Claim C7 as amended: for a ResultQuery criterion, Validate checks only
this much — an orderBy criterion passes exactly when it carries at least
two right operands (the direction value itself is never inspected), a limit
criterion with at least one operand passes exactly when its first operand
parses as an integer that is at least 1 (further operands are never
inspected), and a ResultQuery criterion with any other left operand always
passes. -/
theorem C7_resultQuery_validation_shape :
    (∀ c : Criterion, c.type = .resultQuery → c.leftOp = ("orderBy".data) →
        (c.validate = .ok () ↔ 2 ≤ c.rightOp.length)) ∧
    (∀ (c : Criterion) (r0 : List Char) (rest : List (List Char)),
        c.type = .resultQuery → c.leftOp = ("limit".data) → c.rightOp = r0 :: rest →
        (c.validate = .ok () ↔ ∃ n : Int, goAtoi r0 = some n ∧ 1 ≤ n)) ∧
    (∀ c : Criterion, c.type = .resultQuery → c.leftOp ≠ ("orderBy".data) →
        c.leftOp ≠ ("limit".data) → c.validate = .ok ()) := by
  refine ⟨fun c h1 h2 => ?_, fun c r0 rest h1 h2 h3 => ?_, fun c h1 h2 h3 => ?_⟩
  · rw [Criterion.validate, if_pos h1, if_neg (by rw [h2]; decide), if_pos h2]
    constructor
    · intro hok
      by_contra hlt
      push_neg at hlt
      rcases Nat.lt_or_ge c.rightOp.length 1 with hl1 | hl1
      · rw [if_pos hl1] at hok; exact absurd hok (by simp)
      · rw [if_neg (by omega), if_pos (by omega)] at hok
        exact absurd hok (by simp)
    · intro hge
      rw [if_neg (by omega), if_neg (by omega)]
  · rw [Criterion.validate, if_pos h1, if_pos h2, h3]
    simp only [List.head?_cons]
    cases hA : goAtoi r0 with
    | none => simp
    | some n =>
      dsimp only []
      by_cases hlt : n < 1
      · rw [if_pos hlt]
        constructor
        · intro hok; exact absurd hok (by simp)
        · rintro ⟨m, hm, hm1⟩
          injection hm with hm
          omega
      · rw [if_neg hlt]
        exact ⟨fun _ => ⟨n, rfl, by omega⟩, fun _ => rfl⟩
  · rw [Criterion.validate, if_pos h1, if_neg h3, if_neg h2]

/-- Claim C7 witness: the amended claim applied at a ResultQuery criterion
with an unreserved left operand and at a well-formed limit criterion. -/
theorem C7_resultQuery_validation_shape_witness :
    Criterion.validate ⟨("top".data), .noOperator, [], .resultQuery⟩ = .ok () ∧
    Criterion.validate ⟨("limit".data), .noOperator, [("5".data)], .resultQuery⟩ =
      .ok () := by
  constructor
  · exact C7_resultQuery_validation_shape.2.2 _ rfl (by decide) (by decide)
  · exact (C7_resultQuery_validation_shape.2.1 _ ("5".data) [] rfl rfl rfl).mpr
      ⟨5, by decide, by decide⟩

/-- Claim C8 counterexample: a FieldQuery criterion with the equals operator
and zero right operands passes Validate, refuting the claim that any right
operand count other than exactly one is rejected for a non-multivariate
operator. -/
theorem C8_zero_operands_pass :
    Criterion.validate (byField .equalsOp ("x".data) []) = .ok () ∧
    ¬(([] : List (List Char)).length = 1) :=
  ⟨rfl, by decide⟩

/-- Claim C8 as amended: for FieldQuery and LabelQuery criteria the arity
check rejects a non-multivariate operator only when it carries more than
one right operand; zero right operands pass the check, e.g. an equals
FieldQuery with an empty right-operand list validates successfully. -/
theorem C8_arity_check :
    (∀ c : Criterion, c.type ≠ .resultQuery → ¬c.operator.isMultiVariate →
        1 < c.rightOp.length →
        c.validate = .fails .multipleValuesSingleOp) ∧
    Criterion.validate (byField .equalsOp ("x".data) []) = .ok () := by
  refine ⟨fun c h1 h2 h3 => ?_, rfl⟩
  rw [Criterion.validate, if_neg h1, if_pos ⟨h3, h2⟩]

/-- Claim C8 witness: the arity arm applied at an equals FieldQuery carrying
two right operands. -/
theorem C8_arity_check_witness :
    Criterion.validate (byField .equalsOp ("y".data) [("1".data), ("2".data)]) =
      .fails .multipleValuesSingleOp :=
  C8_arity_check.1 _ (by decide) (by decide) (by decide)

/-- Claim C9 (evaluation of the code at the failing input): the claim holds
of the later abstract-storage revision — a FieldQuery criterion with a key
outside the allow-list is rejected while LabelQuery criteria are exempt —
but the earlier revision, whose listWithLabelsAndCriteria the repo
own test exercises with a label criterion keyed label_key, checks every
criterion against the column allow-list and rejects that label criterion. -/
theorem C9_label_allow_list_divergence :
    validateFieldQueryParamsUntyped visibilityColumns
        [byLabel .equalsOp ("label_key".data) [("v".data)]] =
      .fails .unsupportedFieldKey ∧
    validateFieldQueryParamsTyped visibilityColumns
        [byLabel .equalsOp ("label_key".data) [("v".data)]] = .ok () ∧
    (∀ (cols : List (List Char)) (c : Criterion), c.type = .fieldQuery →
        cols.contains c.leftOp = false →
        validateFieldQueryParamsTyped cols [c] = .fails .unsupportedFieldKey) := by
  refine ⟨rfl, rfl, fun cols c h1 h2 => ?_⟩
  have hnc : ¬cols.contains c.leftOp := by
    intro hc
    rw [hc] at h2
    exact absurd h2 (by decide)
  rw [validateFieldQueryParamsTyped, if_pos ⟨h1, hnc⟩]

/-- Claim C9 witness: the unsupported-field arm applied at a FieldQuery
criterion with an unknown key against the Visibility columns. -/
theorem C9_label_allow_list_divergence_witness :
    validateFieldQueryParamsTyped visibilityColumns
        [byField .equalsOp ("ghost".data) [("v".data)]] =
      .fails .unsupportedFieldKey :=
  C9_label_allow_list_divergence.2.2 visibilityColumns
    (byField .equalsOp ("ghost".data) [("v".data)]) rfl (by decide)

end SM
